import Mathlib

/-!
# Verification of `ctools/defragment_sharded_collection.py` (Phase 1 merge-only defragmentation)

This file gives a shallow embedding of the Phase 1 merge scheduler of
`defragment_sharded_collection.py` and proves/refutes the frozen claims about it.

Modelling conventions:
* Shard-key values are embedded as `Int` (the script treats them opaquely; only
  equality of `max`/`min` bounds matters).
* Sizes (MB) are exact rationals `ℚ`; the Python script mixes ints and floats, and
  the thresholds `0.90`, `0.75`, `1.10` are modelled exactly.
* The cluster is an oracle (`Env`): `dataSize` returns the byte size reported for a
  bound range, `mergeResult` gives the outcome of the n-th mergeChunks command a
  shard worker issues.
* Every externally visible cluster interaction of a worker is recorded as an
  `Event`; merge events additionally record which semaphore (gate) was held.
* Python exceptions are values of `PyError`; `Except`-style short circuiting is
  made explicit by returning `Option WorkerState` (`none` = exception propagated
  out of the worker).
-/

namespace Defrag

/-- A chunk version stamp (`lastmod`, a BSON Timestamp): major component `time`,
minor component `inc`. -/
structure Version where
  time : Nat
  inc : Nat
deriving DecidableEq, Repr

/-- Lexicographic `<` on version stamps, as BSON Timestamps compare in Python. -/
def Version.lt (a b : Version) : Bool :=
  a.time < b.time || (a.time == b.time && a.inc < b.inc)

/-- A chunk document from `config.chunks`: bounds `[min, max)`, owning shard,
and version stamp `lastmod`. -/
structure Chunk where
  min : Int
  max : Int
  shard : String
  lastmod : Version
deriving DecidableEq, Repr

/-- Default chunk (used only to give total versions of head/last projections;
every use site is guarded by non-emptiness of the candidate). -/
def dChunk : Chunk := ⟨0, 0, "", ⟨0, 0⟩⟩

/-- The command-line arguments the Phase 1 logic reads. -/
structure Args where
  dryrun : Bool
  phase_1_estimated_chunk_size_mb : ℚ

/-- Outcome of one `mergeChunks` command, as the script distinguishes them:
success, an `OperationFailure` with code 46 (`LockBusy`), or any other
`OperationFailure`. -/
inductive MergeResult
  | success
  | lockBusy
  | otherFailure
deriving DecidableEq, Repr

/-- Oracle for the cluster's responses and ambient state. `dataSize lo hi` is the
`size` field (bytes) the `dataSize` command returns for bounds `[lo, hi)`;
`mergeResult s k` is the outcome of the k-th `mergeChunks` command issued by the
worker of shard `s`; `isMongos` and `userConfirms` model `checkIsMongos` and the
interactive `yes_no` prompt. -/
structure Env where
  dataSize : Int → Int → ℚ
  mergeResult : String → Nat → MergeResult
  isMongos : Bool
  userConfirms : Bool

/-- Which concurrency semaphore a merge is performed under:
`sem_at_collection_version` (capacity 8) or
`sem_at_less_than_collection_version` (capacity 1). -/
inductive Gate
  | atCollectionVersion
  | belowCollectionVersion
deriving DecidableEq, Repr

/-- `max_merges_on_shards_at_less_than_collection_version = 1` (line 108). -/
def max_merges_on_shards_at_less_than_collection_version : Nat := 1

/-- `max_merges_on_shards_at_collection_version = 8` (line 109). -/
def max_merges_on_shards_at_collection_version : Nat := 8

/-- Externally visible interactions of a shard worker:
* `dataSizeCall lo hi` — the read-only `dataSize` command over `[lo, hi)`;
* `mergeIssued cs g` — an actual `mergeChunks` command over the candidate `cs`,
  issued while holding gate `g` (commit mode);
* `mergePrinted cs g` — the dry-run print of the intended merge of `cs` under
  gate `g` (no command is sent);
* `lockBusyWarning` — the one-time warning printed on the first LockBusy. -/
inductive Event
  | dataSizeCall (lo hi : Int)
  | mergeIssued (cs : List Chunk) (g : Gate)
  | mergePrinted (cs : List Chunk) (g : Gate)
  | lockBusyWarning
deriving DecidableEq, Repr

/-- The mutable state of one shard worker (`merge_chunks_on_shard` locals plus
the shard entry's merge counter). `merges_issued` counts the `mergeChunks`
commands actually sent, indexing the `Env.mergeResult` oracle. -/
structure WorkerState where
  consecutive_chunks : List Chunk
  estimated_size_of_consecutive_chunks : ℚ
  num_lock_busy_errors_encountered : Nat
  num_merges_performed : Nat
  shard_is_at_collection_version : Bool
  merges_issued : Nat
deriving DecidableEq, Repr

/-- Initial worker state: empty candidate, zero counters, and the initially
computed `shard_is_at_collection_version` flag. -/
def initWorkerState (at_cv : Bool) : WorkerState :=
  { consecutive_chunks := []
    estimated_size_of_consecutive_chunks := 0
    num_lock_busy_errors_encountered := 0
    num_merges_performed := 0
    shard_is_at_collection_version := at_cv
    merges_issued := 0 }

/-- The `actual_size_of_consecutive_chunks` computation (lines 192-206): in a dry
run the accumulated estimate is reused verbatim; otherwise the byte size returned
by `dataSize` is divided by 1 MB and rounded up (`math.ceil`). -/
def actual_size (args : Args) (env : Env) (estimated : ℚ) (lo hi : Int) : ℚ :=
  if args.dryrun then estimated
  else ((Rat.ceil (env.dataSize lo hi / (1024 * 1024)) : ℤ) : ℚ)

/-- The events produced while obtaining the actual size: none in a dry run, one
`dataSize` command otherwise. -/
def dsEvents (args : Args) (lo hi : Int) : List Event :=
  if args.dryrun then [] else [Event.dataSizeCall lo hi]

/-- Lines 177-249 of `merge_chunks_on_shard`: given the (possibly just extended)
candidate `consecutive_chunks` with running estimate `estimated` and the flag
`merge_consecutive_chunks_without_size_check`, either keep accumulating (90%
gate), measure the exact size and keep accumulating (under-filled), or perform
the merge under the applicable gate, handling the LockBusy outcome. `c` is the
chunk currently being processed (needed because the forced-commit path restarts
the candidate as `[c]`). Returns the events emitted and `some` next state, or
`none` when an unhandled `OperationFailure` propagates (the bare `raise`). -/
def evaluate_and_merge (args : Args) (target_chunk_size : ℚ) (env : Env) (shard : String)
    (st : WorkerState) (c : Chunk) (consecutive_chunks : List Chunk) (estimated : ℚ)
    (merge_without_size_check : Bool) : List Event × Option WorkerState :=
  -- line 180: continue accumulating below 90% of the target (unless forced)
  if estimated ≤ target_chunk_size * (90 / 100) && !merge_without_size_check then
    ([], some { st with consecutive_chunks := consecutive_chunks
                        estimated_size_of_consecutive_chunks := estimated })
  else
    -- lines 184-187: bounds of the merge command
    let lo := (consecutive_chunks.headD dChunk).min
    let hi := (consecutive_chunks.getLastD dChunk).max
    let actual := actual_size args env estimated lo hi
    let ds := dsEvents args lo hi
    -- lines 208-219: size decision (the oversized >110% branch is a no-op `pass`)
    if !merge_without_size_check && decide (actual < target_chunk_size * (75 / 100)) then
      (ds, some { st with consecutive_chunks := consecutive_chunks
                          estimated_size_of_consecutive_chunks := actual })
    else
      -- lines 221-249: the merge itself, under the applicable semaphore
      let gate := if st.shard_is_at_collection_version then Gate.atCollectionVersion
                  else Gate.belowCollectionVersion
      let post : Bool → WorkerState := fun lockBusy =>
        { consecutive_chunks := if merge_without_size_check then [c] else []
          estimated_size_of_consecutive_chunks :=
            if merge_without_size_check then args.phase_1_estimated_chunk_size_mb else 0
          num_lock_busy_errors_encountered :=
            st.num_lock_busy_errors_encountered + (if lockBusy then 1 else 0)
          num_merges_performed := st.num_merges_performed + 1
          shard_is_at_collection_version := true
          merges_issued := st.merges_issued + (if args.dryrun then 0 else 1) }
      if args.dryrun then
        (ds ++ [Event.mergePrinted consecutive_chunks gate], some (post false))
      else
        match env.mergeResult shard st.merges_issued with
        | .success => (ds ++ [Event.mergeIssued consecutive_chunks gate], some (post false))
        | .lockBusy =>
            (ds ++ [Event.mergeIssued consecutive_chunks gate] ++
              (if st.num_lock_busy_errors_encountered + 1 == 1 then [Event.lockBusyWarning]
               else []),
             some (post true))
        | .otherFailure => (ds ++ [Event.mergeIssued consecutive_chunks gate], none)

/-- One iteration of the `for c in shard_chunks` loop (lines 159-249). -/
def processChunk (args : Args) (target_chunk_size : ℚ) (env : Env) (shard : String)
    (st : WorkerState) (c : Chunk) : List Event × Option WorkerState :=
  -- lines 160-163: empty candidate: start a fresh one
  if st.consecutive_chunks.length == 0 then
    ([], some { st with consecutive_chunks := [c]
                        estimated_size_of_consecutive_chunks :=
                          args.phase_1_estimated_chunk_size_mb })
  -- lines 167-169: contiguous: extend the candidate
  else if (st.consecutive_chunks.getLastD dChunk).max == c.min then
    evaluate_and_merge args target_chunk_size env shard st c
      (st.consecutive_chunks ++ [c])
      (st.estimated_size_of_consecutive_chunks + args.phase_1_estimated_chunk_size_mb)
      false
  -- lines 170-173: non-contiguous, single-chunk candidate: replace it
  else if st.consecutive_chunks.length == 1 then
    ([], some { st with consecutive_chunks := [c]
                        estimated_size_of_consecutive_chunks :=
                          args.phase_1_estimated_chunk_size_mb })
  -- lines 174-175: non-contiguous, ≥2 chunks: force the merge without size check
  else
    evaluate_and_merge args target_chunk_size env shard st c
      st.consecutive_chunks st.estimated_size_of_consecutive_chunks true

/-- The whole `for c in shard_chunks` loop: fold `processChunk` over the chunk
list, concatenating events and stopping when an exception propagates. -/
def runChunks (args : Args) (target_chunk_size : ℚ) (env : Env) (shard : String) :
    WorkerState → List Chunk → List Event × Option WorkerState
  | st, [] => ([], some st)
  | st, c :: cs =>
    match processChunk args target_chunk_size env shard st c with
    | (evs, none) => (evs, none)
    | (evs, some st') =>
      let r := runChunks args target_chunk_size env shard st' cs
      (evs ++ r.1, r.2)

/-- Running maximum of the `lastmod` stamps of a chunk list (Python
`max(shard_chunks, key=lambda c: c.lastmod)` and the `collectionVersion` fold of
lines 73-78 agree on this: keep the accumulator unless strictly exceeded). -/
def maxLastmodD (v : Version) : List Chunk → Version
  | [] => v
  | c :: cs => maxLastmodD (if Version.lt v c.lastmod then c.lastmod else v) cs

/-- `merge_chunks_on_shard` (lines 139-249): return immediately when the shard
has fewer than two chunks, otherwise compute the shard version (max `lastmod`),
set `shard_is_at_collection_version` by comparing major components, and run the
merge loop. -/
def merge_chunks_on_shard (args : Args) (target_chunk_size : ℚ) (env : Env) (shard : String)
    (collection_version : Version) (shard_chunks : List Chunk) :
    List Event × Option WorkerState :=
  if shard_chunks.length < 2 then ([], some (initWorkerState false))
  else
    let shard_version := maxLastmodD ⟨0, 0⟩ shard_chunks
    runChunks args target_chunk_size env shard
      (initWorkerState (shard_version.time == collection_version.time)) shard_chunks

/-- The `config.settings` document with `_id: 'balancer'`. -/
structure BalancerDoc where
  mode : String
deriving DecidableEq, Repr

/-- The `config.settings` document with `_id: 'autosplit'`. -/
structure AutosplitDoc where
  enabled : Bool
deriving DecidableEq, Repr

/-- The `config.settings` document with `_id: 'chunksize'`; `value` is the target
chunk size in MB. -/
structure ChunkSizeDoc where
  value : ℚ
deriving DecidableEq, Repr

/-- The relevant documents of the config database: the `config.collections` entry
for the namespace (present iff the namespace is registered as sharded; its `key`
field is the shard-key pattern, opaque here) and the three settings documents.
`none` models `find_one` returning Python `None`. -/
structure ConfigDb where
  collections : Option Unit
  balancer : Option BalancerDoc
  autosplit : Option AutosplitDoc
  chunksize : Option ChunkSizeDoc

/-- The exceptions the top-level `main` can raise, plus (for refinement against
the spec) the error the spec's taxonomy postulates:
* `typeError` — Python `TypeError` from subscripting `None` (e.g.
  `find_one(...)['key']` on line 23 or `chunk_size_doc['value']` on line 63):
  an unstructured built-in error, carrying no domain meaning;
* `notMongos` — `Cluster.NotMongosException` from `checkIsMongos` (line 35);
* `keyboardInterrupt` — `KeyboardInterrupt('User canceled')` (line 38);
* `preconditionMessage m` — one of the three `raise Exception(...)` precondition
  failures (lines 46, 52, 59), tagged by which check fired;
* `operationFailure` — a non-LockBusy `OperationFailure` re-raised from a merge
  (line 239);
* `metadataUnavailable` — Modelled from the spec: the spec's §7 taxonomy names a
  dedicated `MetadataUnavailable` error for "namespace not sharded"; the source
  defines no such error class and no code path below produces this value. -/
inductive PyError
  | typeError
  | notMongos
  | keyboardInterrupt
  | preconditionMessage (m : String)
  | operationFailure
  | metadataUnavailable
deriving DecidableEq, Repr

/-- Lines 22-63 of `main` in program order: read the `config.collections` entry
(subscripting `None` raises `TypeError` when the namespace is not sharded), the
mongos check / confirmation prompt (dry runs tolerate both), the three
precondition checks (each skipped under `--dryrun`), and finally the
unconditional `target_chunk_size = chunk_size_doc['value']` read. Returns the
target chunk size or the first exception raised. -/
def load_prefix (args : Args) (env : Env) (db : ConfigDb) : Except PyError ℚ :=
  match db.collections with
  | none => .error .typeError
  | some _ =>
    if args.dryrun then
      -- line 30-33: checkIsMongos failure is caught and only printed
      match db.chunksize with
      | none => .error .typeError
      | some d => .ok d.value
    else if !env.isMongos then .error .notMongos
    else if !env.userConfirms then .error .keyboardInterrupt
    else if (match db.balancer with
             | none => true
             | some d => d.mode != "off") then
      .error (.preconditionMessage "balancer must be stopped")
    else if (match db.autosplit with
             | none => true
             | some d => d.enabled) then
      .error (.preconditionMessage "auto-splitter must be disabled")
    else if (match db.chunksize with
             | none => true
             | some d => decide (d.value < 128)) then
      .error (.preconditionMessage "MaxChunkSize must be at least 128 MB")
    else
      match db.chunksize with
      | none => .error .typeError
      | some d => .ok d.value

/-- The whole program on a snapshot: run `load_prefix`; on success, compute the
collection version over all chunks (the fold of lines 73-78) and run one worker
per shard entry (the `asyncio.gather` of lines 251-254; events of all workers
are collected, and a worker's unhandled `OperationFailure` surfaces as the
run's error). An error in the prefix yields no events at all: the chunk scan
and the workers are never reached. -/
def main_model (args : Args) (env : Env) (db : ConfigDb)
    (shard_to_chunks : List (String × List Chunk)) : List Event × Option PyError :=
  match load_prefix args env db with
  | .error e => ([], some e)
  | .ok target_chunk_size =>
    let allChunks := shard_to_chunks.foldr (fun sc acc => sc.2 ++ acc) []
    let collectionVersion := maxLastmodD ⟨0, 0⟩ allChunks
    let results := shard_to_chunks.map fun sc =>
      merge_chunks_on_shard args target_chunk_size env sc.1 collectionVersion sc.2
    (results.foldr (fun r acc => r.1 ++ acc) [],
     if results.any fun r => r.2.isNone then some .operationFailure else none)

/-! ## Observation helpers and concrete instances used in the theorems -/

/-- The gates of the merge commands (issued or dry-run printed) in an event
trace, in order. -/
def mergeGates (evs : List Event) : List Gate :=
  evs.filterMap fun e =>
    match e with
    | .mergeIssued _ g => some g
    | .mergePrinted _ g => some g
    | _ => none

/-- The chunk lists covered by the merge commands (issued or dry-run printed) in
an event trace, in order. -/
def mergeLists (evs : List Event) : List (List Chunk) :=
  evs.filterMap fun e =>
    match e with
    | .mergeIssued cs _ => some cs
    | .mergePrinted cs _ => some cs
    | _ => none

/-- A chunk list is a contiguous chain: each chunk's `max` is the next one's
`min`. -/
def chainB : List Chunk → Bool
  | [] => true
  | [_] => true
  | a :: b :: rest => (a.max == b.min) && chainB (b :: rest)

/-- A well-formed merge candidate for shard `sh`: contiguous, and every chunk
owned by `sh`. -/
def goodCand (sh : String) (cs : List Chunk) : Bool :=
  chainB cs && cs.all (·.shard == sh)

/-- The bounds a `mergeChunks` command would carry for a candidate
(`[consecutive_chunks[0].min, consecutive_chunks[-1].max]`, lines 184-187). -/
def boundsOf (cs : List Chunk) : Int × Int :=
  ((cs.headD dChunk).min, (cs.getLastD dChunk).max)

/-- Scenario chunk `[0, 10)` with version (1,0) on shard S. -/
def chunkA : Chunk := ⟨0, 10, "S", ⟨1, 0⟩⟩

/-- Scenario chunk `[10, 20)` with version (1,0) on shard S. -/
def chunkB : Chunk := ⟨10, 20, "S", ⟨1, 0⟩⟩

/-- Scenario chunk `[20, 30)` with version (1,1) on shard S. -/
def chunkC : Chunk := ⟨20, 30, "S", ⟨1, 1⟩⟩

/-- A chunk `[100, 110)` not contiguous with `chunkC`. -/
def chunkD : Chunk := ⟨100, 110, "S", ⟨1, 2⟩⟩

/-- Dry-run arguments with a 25 MB per-chunk estimate. -/
def argsPlan : Args := ⟨true, 25⟩

/-- Commit-mode arguments with a 25 MB per-chunk estimate. -/
def argsCommit : Args := ⟨false, 25⟩

/-- A cluster oracle whose merges always succeed. -/
def envQuiet : Env := ⟨fun _ _ => 0, fun _ _ => .success, true, true⟩

/-- A cluster oracle reporting 48 MB for every range and failing every merge
with `LockBusy`. -/
def envLockBusy : Env := ⟨fun _ _ => 48 * 1024 * 1024, fun _ _ => .lockBusy, true, true⟩

/-- A config database where the namespace is not registered as sharded
(`config.collections` has no entry), all settings present and valid. -/
def dbNotSharded : ConfigDb := ⟨none, some ⟨"off"⟩, some ⟨false⟩, some ⟨128⟩⟩

/-- A config database with the namespace sharded but no `chunksize` settings
document. -/
def dbNoChunkSize : ConfigDb := ⟨some (), some ⟨"off"⟩, some ⟨false⟩, none⟩

/-! ## Basic lemmas about the trace observers -/

@[simp] theorem mergeGates_nil : mergeGates [] = [] := rfl

@[simp] theorem mergeGates_append (a b : List Event) :
    mergeGates (a ++ b) = mergeGates a ++ mergeGates b :=
  List.filterMap_append ..

@[simp] theorem mergeGates_dataSize (lo hi : Int) (evs : List Event) :
    mergeGates (Event.dataSizeCall lo hi :: evs) = mergeGates evs := rfl

@[simp] theorem mergeGates_warning (evs : List Event) :
    mergeGates (Event.lockBusyWarning :: evs) = mergeGates evs := rfl

@[simp] theorem mergeGates_issued (cs : List Chunk) (g : Gate) (evs : List Event) :
    mergeGates (Event.mergeIssued cs g :: evs) = g :: mergeGates evs := rfl

@[simp] theorem mergeGates_printed (cs : List Chunk) (g : Gate) (evs : List Event) :
    mergeGates (Event.mergePrinted cs g :: evs) = g :: mergeGates evs := rfl

@[simp] theorem mergeGates_dsEvents (args : Args) (lo hi : Int) :
    mergeGates (dsEvents args lo hi) = [] := by
  unfold dsEvents; split <;> rfl

@[simp] theorem mergeLists_nil : mergeLists [] = [] := rfl

@[simp] theorem mergeLists_append (a b : List Event) :
    mergeLists (a ++ b) = mergeLists a ++ mergeLists b :=
  List.filterMap_append ..

@[simp] theorem mergeLists_dataSize (lo hi : Int) (evs : List Event) :
    mergeLists (Event.dataSizeCall lo hi :: evs) = mergeLists evs := rfl

@[simp] theorem mergeLists_warning (evs : List Event) :
    mergeLists (Event.lockBusyWarning :: evs) = mergeLists evs := rfl

@[simp] theorem mergeLists_issued (cs : List Chunk) (g : Gate) (evs : List Event) :
    mergeLists (Event.mergeIssued cs g :: evs) = cs :: mergeLists evs := rfl

@[simp] theorem mergeLists_printed (cs : List Chunk) (g : Gate) (evs : List Event) :
    mergeLists (Event.mergePrinted cs g :: evs) = cs :: mergeLists evs := rfl

@[simp] theorem mergeLists_dsEvents (args : Args) (lo hi : Int) :
    mergeLists (dsEvents args lo hi) = [] := by
  unfold dsEvents; split <;> rfl

/-! ## Case analysis lemmas for `evaluate_and_merge` -/

/-- Every merge command emitted by `evaluate_and_merge` covers exactly the
candidate it was given. -/
theorem evaluate_mergeLists (args : Args) (t : ℚ) (env : Env) (sh : String)
    (st : WorkerState) (c : Chunk) (cs : List Chunk) (est : ℚ) (w : Bool) :
    ∀ l ∈ mergeLists (evaluate_and_merge args t env sh st c cs est w).1, l = cs := by
  unfold evaluate_and_merge
  repeat' split
  all_goals try simp_all
  all_goals (repeat' split)
  all_goals simp_all

/-- Every merge command emitted by `evaluate_and_merge` runs under the gate
selected by the incoming `shard_is_at_collection_version` flag. -/
theorem evaluate_mergeGates (args : Args) (t : ℚ) (env : Env) (sh : String)
    (st : WorkerState) (c : Chunk) (cs : List Chunk) (est : ℚ) (w : Bool) :
    ∀ g ∈ mergeGates (evaluate_and_merge args t env sh st c cs est w).1,
      g = if st.shard_is_at_collection_version then Gate.atCollectionVersion
          else Gate.belowCollectionVersion := by
  unfold evaluate_and_merge
  repeat' split
  all_goals try simp_all
  all_goals (repeat' split)
  all_goals simp_all

/-- `evaluate_and_merge` emits at most one merge command. -/
theorem evaluate_mergeGates_len (args : Args) (t : ℚ) (env : Env) (sh : String)
    (st : WorkerState) (c : Chunk) (cs : List Chunk) (est : ℚ) (w : Bool) :
    (mergeGates (evaluate_and_merge args t env sh st c cs est w).1).length ≤ 1 := by
  unfold evaluate_and_merge
  repeat' split
  all_goals try simp_all
  all_goals (repeat' split)
  all_goals simp_all

/-- The resulting flag of `evaluate_and_merge`: set to `true` by a merge, kept
otherwise. -/
theorem evaluate_flag (args : Args) (t : ℚ) (env : Env) (sh : String)
    (st : WorkerState) (c : Chunk) (cs : List Chunk) (est : ℚ) (w : Bool) :
    ∀ st', (evaluate_and_merge args t env sh st c cs est w).2 = some st' →
      st'.shard_is_at_collection_version =
        (st.shard_is_at_collection_version
          || !(mergeGates (evaluate_and_merge args t env sh st c cs est w).1).isEmpty) := by
  unfold evaluate_and_merge
  repeat' split
  all_goals try simp_all
  all_goals (repeat' split)
  all_goals simp_all

/-- The candidate after `evaluate_and_merge`: kept (continue paths), cleared
(normal commit), or restarted as `[c]` (forced commit). -/
theorem evaluate_cand (args : Args) (t : ℚ) (env : Env) (sh : String)
    (st : WorkerState) (c : Chunk) (cs : List Chunk) (est : ℚ) (w : Bool) :
    ∀ st', (evaluate_and_merge args t env sh st c cs est w).2 = some st' →
      st'.consecutive_chunks = cs ∨ st'.consecutive_chunks = [] ∨
        st'.consecutive_chunks = [c] := by
  unfold evaluate_and_merge
  repeat' split
  all_goals try simp_all
  all_goals (repeat' split)
  all_goals simp_all

/-- A forced evaluation (`merge_without_size_check = true`) always commits:
exactly one merge command over exactly the accumulated candidate is emitted, no
size threshold is consulted, and on continuation the candidate restarts as the
current chunk with the per-chunk estimate. -/
theorem evaluate_forced (args : Args) (t : ℚ) (env : Env) (sh : String)
    (st : WorkerState) (c : Chunk) (cs : List Chunk) (est : ℚ) :
    mergeLists (evaluate_and_merge args t env sh st c cs est true).1 = [cs]
      ∧ ∀ st', (evaluate_and_merge args t env sh st c cs est true).2 = some st' →
          st'.consecutive_chunks = [c]
            ∧ st'.estimated_size_of_consecutive_chunks =
                args.phase_1_estimated_chunk_size_mb := by
  unfold evaluate_and_merge
  repeat' split
  all_goals simp_all

/-- The merge counter law of `evaluate_and_merge`: when no exception propagates,
`num_merges_performed` grows by exactly the number of merge commands emitted
(in particular it also grows after a `LockBusy` failure). -/
theorem evaluate_count (args : Args) (t : ℚ) (env : Env) (sh : String)
    (st : WorkerState) (c : Chunk) (cs : List Chunk) (est : ℚ) (w : Bool) :
    ∀ st', (evaluate_and_merge args t env sh st c cs est w).2 = some st' →
      st'.num_merges_performed =
        st.num_merges_performed +
          (mergeGates (evaluate_and_merge args t env sh st c cs est w).1).length := by
  unfold evaluate_and_merge
  repeat' split
  all_goals try simp_all
  all_goals (repeat' split)
  all_goals simp_all

/-- `evaluate_and_merge` only aborts (bare `raise`) when the issued merge came
back as a non-LockBusy `OperationFailure`, which cannot happen in a dry run. -/
theorem evaluate_fatal (args : Args) (t : ℚ) (env : Env) (sh : String)
    (st : WorkerState) (c : Chunk) (cs : List Chunk) (est : ℚ) (w : Bool) :
    (evaluate_and_merge args t env sh st c cs est w).2 = none →
      env.mergeResult sh st.merges_issued = .otherFailure ∧ args.dryrun = false := by
  unfold evaluate_and_merge
  repeat' split
  all_goals try simp_all
  all_goals (repeat' split)
  all_goals simp_all

/-- In a dry run, `evaluate_and_merge` only prints intended merges (no
`dataSize` command, no `mergeChunks` command) and never aborts. -/
theorem evaluate_dryrun (args : Args) (t : ℚ) (env : Env) (sh : String)
    (st : WorkerState) (c : Chunk) (cs : List Chunk) (est : ℚ) (w : Bool)
    (hdry : args.dryrun = true) :
    (∀ ev ∈ (evaluate_and_merge args t env sh st c cs est w).1,
        ∃ l g, ev = Event.mergePrinted l g)
      ∧ (evaluate_and_merge args t env sh st c cs est w).2 ≠ none := by
  unfold evaluate_and_merge
  repeat' split
  all_goals try simp_all [dsEvents]
  all_goals (repeat' split)
  all_goals simp_all [dsEvents]

/-! ## Lemmas about a single loop iteration (`processChunk`) -/

/-- Extending a nonempty contiguous chain by a chunk adjacent to its last
element keeps it contiguous. -/
theorem chainB_append (cs : List Chunk) (c : Chunk) (hne : cs ≠ [])
    (h : chainB cs = true) (hlast : ((cs.getLastD dChunk).max == c.min) = true) :
    chainB (cs ++ [c]) = true := by
  induction cs with
  | nil => exact absurd rfl hne
  | cons a t ih =>
    cases t with
    | nil => simp_all [chainB]
    | cons b t2 =>
      have := ih (by simp) (by simp [chainB] at h; exact h.2)
        (by simpa [List.getLastD_cons] using hlast)
      simp [chainB] at h ⊢
      exact ⟨h.1, by simpa using this⟩

/-- Extending a well-formed nonempty candidate by an adjacent chunk of the same
shard keeps it well-formed. -/
theorem goodCand_append (sh : String) (cs : List Chunk) (c : Chunk) (hne : cs ≠ [])
    (h : goodCand sh cs = true) (hc : (c.shard == sh) = true)
    (hlast : ((cs.getLastD dChunk).max == c.min) = true) :
    goodCand sh (cs ++ [c]) = true := by
  simp only [goodCand, Bool.and_eq_true] at h ⊢
  refine ⟨chainB_append cs c hne h.1 hlast, ?_⟩
  simp only [List.all_append, Bool.and_eq_true]
  exact ⟨h.2, by simpa using hc⟩

/-- Every merge command emitted by one loop iteration runs under the gate
selected by the incoming flag. -/
theorem processChunk_gates (args : Args) (t : ℚ) (env : Env) (sh : String)
    (st : WorkerState) (c : Chunk) :
    ∀ g ∈ mergeGates (processChunk args t env sh st c).1,
      g = if st.shard_is_at_collection_version then Gate.atCollectionVersion
          else Gate.belowCollectionVersion := by
  unfold processChunk
  split
  · simp
  · split
    · exact evaluate_mergeGates args t env sh st c _ _ _
    · split
      · simp
      · exact evaluate_mergeGates args t env sh st c _ _ _

/-- One loop iteration emits at most one merge command. -/
theorem processChunk_gates_len (args : Args) (t : ℚ) (env : Env) (sh : String)
    (st : WorkerState) (c : Chunk) :
    (mergeGates (processChunk args t env sh st c).1).length ≤ 1 := by
  unfold processChunk
  split
  · simp
  · split
    · exact evaluate_mergeGates_len args t env sh st c _ _ _
    · split
      · simp
      · exact evaluate_mergeGates_len args t env sh st c _ _ _

/-- The flag after one iteration: set by a merge, untouched otherwise. -/
theorem processChunk_flag (args : Args) (t : ℚ) (env : Env) (sh : String)
    (st : WorkerState) (c : Chunk) :
    ∀ st', (processChunk args t env sh st c).2 = some st' →
      st'.shard_is_at_collection_version =
        (st.shard_is_at_collection_version
          || !(mergeGates (processChunk args t env sh st c).1).isEmpty) := by
  unfold processChunk
  split
  · simp
  · split
    · exact evaluate_flag args t env sh st c _ _ _
    · split
      · simp
      · exact evaluate_flag args t env sh st c _ _ _

/-- The merge counter grows by exactly the number of merge commands emitted in
the iteration (also counting merges that failed with `LockBusy`). -/
theorem processChunk_count (args : Args) (t : ℚ) (env : Env) (sh : String)
    (st : WorkerState) (c : Chunk) :
    ∀ st', (processChunk args t env sh st c).2 = some st' →
      st'.num_merges_performed =
        st.num_merges_performed + (mergeGates (processChunk args t env sh st c).1).length := by
  unfold processChunk
  split
  · simp
  · split
    · exact evaluate_count args t env sh st c _ _ _
    · split
      · simp
      · exact evaluate_count args t env sh st c _ _ _

/-- An iteration only aborts on a non-LockBusy `OperationFailure` of an actual
merge command; in particular dry runs and `LockBusy` outcomes never abort. -/
theorem processChunk_fatal (args : Args) (t : ℚ) (env : Env) (sh : String)
    (st : WorkerState) (c : Chunk) :
    (processChunk args t env sh st c).2 = none →
      env.mergeResult sh st.merges_issued = .otherFailure ∧ args.dryrun = false := by
  unfold processChunk
  split
  · simp
  · split
    · exact evaluate_fatal args t env sh st c _ _ _
    · split
      · simp
      · exact evaluate_fatal args t env sh st c _ _ _

/-- In a dry run an iteration only prints intended merges and never aborts. -/
theorem processChunk_dryrun (args : Args) (t : ℚ) (env : Env) (sh : String)
    (st : WorkerState) (c : Chunk) (hdry : args.dryrun = true) :
    (∀ ev ∈ (processChunk args t env sh st c).1, ∃ l g, ev = Event.mergePrinted l g)
      ∧ (processChunk args t env sh st c).2 ≠ none := by
  unfold processChunk
  split
  · simp
  · split
    · exact evaluate_dryrun args t env sh st c _ _ _ hdry
    · split
      · simp
      · exact evaluate_dryrun args t env sh st c _ _ _ hdry

/-- Candidate well-formedness is preserved by one iteration, and every merge
command emitted covers a nonempty well-formed candidate of the worker's shard. -/
theorem processChunk_good (args : Args) (t : ℚ) (env : Env) (sh : String)
    (st : WorkerState) (c : Chunk) (hc : (c.shard == sh) = true)
    (hst : goodCand sh st.consecutive_chunks = true) :
    (∀ l ∈ mergeLists (processChunk args t env sh st c).1, l ≠ [] ∧ goodCand sh l = true)
      ∧ (∀ st', (processChunk args t env sh st c).2 = some st' →
          goodCand sh st'.consecutive_chunks = true) := by
  have hgc : goodCand sh [c] = true := by simp [goodCand, chainB, hc]
  unfold processChunk
  split
  · constructor
    · simp
    · intro st' h
      simp only [Option.some.injEq] at h
      subst h
      exact hgc
  · next hlen =>
    split
    · next hcont =>
      have hne : st.consecutive_chunks ≠ [] := by
        intro h0
        simp [h0] at hlen
      have hext : goodCand sh (st.consecutive_chunks ++ [c]) = true :=
        goodCand_append sh st.consecutive_chunks c hne hst hc (by simpa using hcont)
      constructor
      · intro l hl
        have := evaluate_mergeLists args t env sh st c (st.consecutive_chunks ++ [c])
          (st.estimated_size_of_consecutive_chunks + args.phase_1_estimated_chunk_size_mb)
          false l hl
        subst this
        exact ⟨by simp, hext⟩
      · intro st' hst'
        rcases evaluate_cand args t env sh st c (st.consecutive_chunks ++ [c])
          (st.estimated_size_of_consecutive_chunks + args.phase_1_estimated_chunk_size_mb)
          false st' hst' with h | h | h <;> rw [h]
        · exact hext
        · simp [goodCand, chainB]
        · exact hgc
    · split
      · constructor
        · simp
        · intro st' h
          simp only [Option.some.injEq] at h
          subst h
          exact hgc
      · next hlen1 =>
        have hne : st.consecutive_chunks ≠ [] := by
          intro h0
          simp [h0] at hlen
        constructor
        · intro l hl
          have := evaluate_mergeLists args t env sh st c st.consecutive_chunks
            st.estimated_size_of_consecutive_chunks true l hl
          subst this
          exact ⟨hne, hst⟩
        · intro st' hst'
          rcases evaluate_cand args t env sh st c st.consecutive_chunks
            st.estimated_size_of_consecutive_chunks true st' hst' with h | h | h <;> rw [h]
          · exact hst
          · simp [goodCand, chainB]
          · exact hgc

/-! ## Lemmas about the whole per-shard loop (`runChunks`) -/

/-- Once the worker's flag says at-collection-version, every later merge runs
under the `atCollectionVersion` gate, and the flag stays set. -/
theorem runChunks_flagged (args : Args) (t : ℚ) (env : Env) (sh : String) :
    ∀ (l : List Chunk) (st : WorkerState), st.shard_is_at_collection_version = true →
      (∀ g ∈ mergeGates (runChunks args t env sh st l).1, g = Gate.atCollectionVersion)
        ∧ (∀ st', (runChunks args t env sh st l).2 = some st' →
            st'.shard_is_at_collection_version = true) := by
  intro l
  induction l with
  | nil =>
    intro st hst
    refine ⟨by simp [runChunks], ?_⟩
    intro st' h
    simp only [runChunks, Option.some.injEq] at h
    rw [← h]
    exact hst
  | cons c cs ih =>
    intro st hst
    rcases hpc : processChunk args t env sh st c with ⟨evs, r⟩
    have hg := processChunk_gates args t env sh st c
    rw [hpc] at hg
    rcases r with _ | st1
    · simp only [runChunks, hpc]
      refine ⟨?_, by simp⟩
      intro g hgm
      simpa [hst] using hg g hgm
    · have hflag := processChunk_flag args t env sh st c st1 (by rw [hpc])
      have hst1 : st1.shard_is_at_collection_version = true := by
        rw [hpc] at hflag
        simp [hflag, hst]
      obtain ⟨ih1, ih2⟩ := ih st1 hst1
      simp only [runChunks, hpc]
      constructor
      · intro g hgm
        rw [mergeGates_append] at hgm
        rcases List.mem_append.mp hgm with h | h
        · simpa [hst] using hg g h
        · exact ih1 g h
      · exact ih2

/-- In any worker run, every merge after the first one runs under the
`atCollectionVersion` gate. -/
theorem runChunks_gates_drop (args : Args) (t : ℚ) (env : Env) (sh : String) :
    ∀ (l : List Chunk) (st : WorkerState),
      ∀ g ∈ (mergeGates (runChunks args t env sh st l).1).drop 1,
        g = Gate.atCollectionVersion := by
  intro l
  induction l with
  | nil => simp [runChunks]
  | cons c cs ih =>
    intro st
    rcases hpc : processChunk args t env sh st c with ⟨evs, r⟩
    have hlen := processChunk_gates_len args t env sh st c
    rw [hpc] at hlen
    rcases r with _ | st1
    · simp only [runChunks, hpc]
      intro g hgm
      rcases heq : mergeGates evs with _ | ⟨a, _ | ⟨b, r2⟩⟩
      · simp [heq] at hgm
      · simp [heq] at hgm
      · rw [heq] at hlen
        simp at hlen
    · simp only [runChunks, hpc]
      intro g hgm
      rw [mergeGates_append] at hgm
      rcases heq : mergeGates evs with _ | ⟨a, _ | ⟨b, r2⟩⟩
      · rw [heq] at hgm
        simp only [List.nil_append] at hgm
        exact ih st1 g hgm
      · have hflag := processChunk_flag args t env sh st c st1 (by rw [hpc])
        rw [hpc, heq] at hflag
        have hst1 : st1.shard_is_at_collection_version = true := by
          simp [hflag]
        rw [heq] at hgm
        simp only [List.cons_append, List.nil_append, List.drop_succ_cons,
          List.drop_zero] at hgm
        exact (runChunks_flagged args t env sh cs st1 hst1).1 g hgm
      · rw [heq] at hlen
        simp at hlen

/-- The final merge counter of a completed run equals the number of merge
commands (issued or printed) in its trace. -/
theorem runChunks_count (args : Args) (t : ℚ) (env : Env) (sh : String) :
    ∀ (l : List Chunk) (st st' : WorkerState),
      (runChunks args t env sh st l).2 = some st' →
        st'.num_merges_performed =
          st.num_merges_performed + (mergeGates (runChunks args t env sh st l).1).length := by
  intro l
  induction l with
  | nil =>
    intro st st' h
    simp only [runChunks, Option.some.injEq] at h
    rw [← h]
    simp [runChunks]
  | cons c cs ih =>
    intro st st' h
    rcases hpc : processChunk args t env sh st c with ⟨evs, r⟩
    rcases r with _ | st1
    · rw [runChunks, hpc] at h
      simp at h
    · rw [runChunks, hpc] at h
      simp only at h
      have h1 := processChunk_count args t env sh st c st1 (by rw [hpc])
      rw [hpc] at h1
      simp only at h1
      have h2 := ih st1 st' h
      rw [runChunks, hpc]
      simp only [mergeGates_append, List.length_append]
      omega

/-- In a dry run the whole loop emits only intended-merge prints and never
aborts. -/
theorem runChunks_dryrun (args : Args) (t : ℚ) (env : Env) (sh : String)
    (hdry : args.dryrun = true) :
    ∀ (l : List Chunk) (st : WorkerState),
      (∀ ev ∈ (runChunks args t env sh st l).1, ∃ ls g, ev = Event.mergePrinted ls g)
        ∧ (runChunks args t env sh st l).2 ≠ none := by
  intro l
  induction l with
  | nil => simp [runChunks]
  | cons c cs ih =>
    intro st
    rcases hpc : processChunk args t env sh st c with ⟨evs, r⟩
    have hstep := processChunk_dryrun args t env sh st c hdry
    rw [hpc] at hstep
    rcases r with _ | st1
    · exact absurd rfl hstep.2
    · obtain ⟨ih1, ih2⟩ := ih st1
      simp only [runChunks, hpc]
      constructor
      · intro ev hev
        rcases List.mem_append.mp hev with h | h
        · exact hstep.1 ev h
        · exact ih1 ev h
      · exact ih2

/-- If all the chunks fed to the loop belong to shard `sh` and the current
candidate is well-formed, every merge command in the trace covers a nonempty,
contiguous candidate owned entirely by `sh`. -/
theorem runChunks_good (args : Args) (t : ℚ) (env : Env) (sh : String) :
    ∀ (l : List Chunk) (st : WorkerState), (∀ ch ∈ l, (ch.shard == sh) = true) →
      goodCand sh st.consecutive_chunks = true →
      ∀ l' ∈ mergeLists (runChunks args t env sh st l).1,
        l' ≠ [] ∧ goodCand sh l' = true := by
  intro l
  induction l with
  | nil => simp [runChunks]
  | cons c cs ih =>
    intro st hl hst
    rcases hpc : processChunk args t env sh st c with ⟨evs, r⟩
    have hstep := processChunk_good args t env sh st c (hl c (by simp)) hst
    rw [hpc] at hstep
    rcases r with _ | st1
    · simp only [runChunks, hpc]
      exact hstep.1
    · simp only [runChunks, hpc]
      intro l' hl'
      rw [mergeLists_append] at hl'
      rcases List.mem_append.mp hl' with h | h
      · exact hstep.1 l' h
      · exact ih st1 (fun ch hch => hl ch (by simp [hch])) (hstep.2 st1 rfl) l' h

/-- A worker whose shard's merges never come back as a non-LockBusy
`OperationFailure` always completes its scan. -/
theorem runChunks_nofatal (args : Args) (t : ℚ) (env : Env) (sh : String)
    (henv : ∀ k, env.mergeResult sh k ≠ .otherFailure) :
    ∀ (l : List Chunk) (st : WorkerState), (runChunks args t env sh st l).2 ≠ none := by
  intro l
  induction l with
  | nil => simp [runChunks]
  | cons c cs ih =>
    intro st
    rcases hpc : processChunk args t env sh st c with ⟨evs, r⟩
    rcases r with _ | st1
    · have := processChunk_fatal args t env sh st c (by rw [hpc])
      exact absurd this.1 (henv st.merges_issued)
    · simp only [runChunks, hpc]
      exact ih st1

/-- In a list of gates whose elements after the first are all
`atCollectionVersion`, at most one element is `belowCollectionVersion`. -/
theorem countP_below_of_drop (l : List Gate)
    (h : ∀ g ∈ l.drop 1, g = Gate.atCollectionVersion) :
    l.countP (· == Gate.belowCollectionVersion) ≤ 1 := by
  cases l with
  | nil => simp
  | cons a tl =>
    have ht : tl.countP (· == Gate.belowCollectionVersion) = 0 := by
      rw [List.countP_eq_zero]
      intro g hg
      have := h g (by simpa using hg)
      simp [this]
    cases e : (a == Gate.belowCollectionVersion) <;> simp [List.countP_cons, ht, e]

/-! ## The claims -/

/-- C2: on the scenario shard with chunks `[0,10)`, `[10,20)`, `[20,30)` (25 MB
per-chunk estimate, target 64 MB), a dry run accumulates all three chunks
(estimate 75 > 57.6 = 90% of 64), reuses the estimate 75 as the simulated exact
size, and — although 75 exceeds 110% of 64 = 70.4 — still commits exactly one
intended merge, over bounds `[0, 30)`, printed rather than issued. -/
theorem dryrun_three_chunk_scenario :
    merge_chunks_on_shard argsPlan 64 envQuiet "S" ⟨1, 1⟩ [chunkA, chunkB, chunkC] =
      ([Event.mergePrinted [chunkA, chunkB, chunkC] Gate.atCollectionVersion],
       some ⟨[], 0, 0, 1, true, 0⟩)
      ∧ boundsOf [chunkA, chunkB, chunkC] = (0, 30)
      ∧ actual_size argsPlan envQuiet 75 0 30 = 75
      ∧ (64 : ℚ) * (110 / 100) < 75 := by
  refine ⟨?_, by norm_num [boundsOf, chunkA, chunkB, chunkC, dChunk],
    by norm_num [actual_size, argsPlan], by norm_num⟩
  norm_num [merge_chunks_on_shard, runChunks, processChunk, evaluate_and_merge,
    actual_size, dsEvents, initWorkerState, maxLastmodD, Version.lt,
    chunkA, chunkB, chunkC, argsPlan, envQuiet, dChunk]

/-- C1 (counterexample): in commit mode on the scenario shard, with the cluster
reporting 48 MB for the accumulated range and failing the (single) issued
`mergeChunks` with `LockBusy`, the worker still ends with
`num_merges_performed = 1` (and one recorded LockBusy plus its one-time
warning) — the counter is NOT left unchanged by a LockBusy-failed merge,
because line 248 increments it unconditionally after the `try/except`. -/
theorem lockBusy_merge_still_counted_cex :
    merge_chunks_on_shard argsCommit 64 envLockBusy "S" ⟨1, 1⟩ [chunkA, chunkB, chunkC] =
      ([Event.dataSizeCall 0 30,
        Event.mergeIssued [chunkA, chunkB, chunkC] Gate.atCollectionVersion,
        Event.lockBusyWarning],
       some ⟨[], 0, 1, 1, true, 1⟩)
      ∧ envLockBusy.mergeResult "S" 0 = MergeResult.lockBusy := by
  refine ⟨?_, rfl⟩
  norm_num [merge_chunks_on_shard, runChunks, processChunk, evaluate_and_merge,
    actual_size, dsEvents, initWorkerState, maxLastmodD, Version.lt, Rat.ceil,
    chunkA, chunkB, chunkC, argsCommit, envLockBusy, dChunk]

/-- C1 (amended): a completed worker's `num_merges_performed` equals the number
of merge commits attempted (issued or dry-run printed) — the counter is
incremented after every attempt, including one that failed with `LockBusy`; and
a worker whose merges only ever succeed or fail with `LockBusy` never aborts
(only a non-LockBusy `OperationFailure` does). -/
theorem merge_count_counts_all_attempts (args : Args) (t : ℚ) (env : Env) (sh : String)
    (ver : Version) (chunks : List Chunk) :
    (∀ st', (merge_chunks_on_shard args t env sh ver chunks).2 = some st' →
        st'.num_merges_performed =
          (mergeGates (merge_chunks_on_shard args t env sh ver chunks).1).length)
      ∧ ((∀ k, env.mergeResult sh k ≠ .otherFailure) →
          (merge_chunks_on_shard args t env sh ver chunks).2 ≠ none) := by
  unfold merge_chunks_on_shard
  split
  · constructor
    · intro st' h
      simp only [Option.some.injEq] at h
      rw [← h]
      simp [initWorkerState]
    · intro _
      simp
  · constructor
    · intro st' h
      have := runChunks_count args t env sh chunks _ st' h
      simpa [initWorkerState] using this
    · intro henv
      exact runChunks_nofatal args t env sh henv chunks _

/-- C1 (witness): the amended claim at the LockBusy scenario: the final counter
1 equals the single merge attempt in the trace. -/
theorem merge_count_counts_all_attempts_witness :
    (⟨[], 0, 1, 1, true, 1⟩ : WorkerState).num_merges_performed =
      (mergeGates
        (merge_chunks_on_shard argsCommit 64 envLockBusy "S" ⟨1, 1⟩
          [chunkA, chunkB, chunkC]).1).length := by
  apply (merge_count_counts_all_attempts argsCommit 64 envLockBusy "S" ⟨1, 1⟩
    [chunkA, chunkB, chunkC]).1
  norm_num [merge_chunks_on_shard, runChunks, processChunk, evaluate_and_merge,
    actual_size, dsEvents, initWorkerState, maxLastmodD, Version.lt, Rat.ceil,
    chunkA, chunkB, chunkC, argsCommit, envLockBusy, dChunk]

/-- C3: for an evaluated, not force-committed candidate (the 90% accumulation
gate already passed): a measured size of exactly 75% of the target commits (one
merge over exactly the candidate — the `<` on line 210 makes the boundary
inclusive on the commit side); exactly 110% of the target also commits (line
215's `>` is strict and the oversized branch is a no-op); and only a size
strictly below 75% continues accumulation, resetting the running estimate to
the measured size. -/
theorem size_threshold_boundaries (args : Args) (t : ℚ) (env : Env) (sh : String)
    (st : WorkerState) (c : Chunk) (cs : List Chunk) (est actual : ℚ)
    (hact : actual = actual_size args env est (cs.headD dChunk).min (cs.getLastD dChunk).max)
    (h90 : ¬(est ≤ t * (90 / 100))) :
    (actual = t * (75 / 100) →
        mergeLists (evaluate_and_merge args t env sh st c cs est false).1 = [cs])
      ∧ (0 < t → actual = t * (110 / 100) →
          mergeLists (evaluate_and_merge args t env sh st c cs est false).1 = [cs])
      ∧ (actual < t * (75 / 100) →
          evaluate_and_merge args t env sh st c cs est false =
            (dsEvents args (cs.headD dChunk).min (cs.getLastD dChunk).max,
             some { st with consecutive_chunks := cs
                            estimated_size_of_consecutive_chunks := actual })) := by
  refine ⟨?_, ?_, ?_⟩
  · intro h75
    unfold evaluate_and_merge
    rw [if_neg (by simp [h90]), if_neg (by rw [← hact]; simp [h75])]
    repeat' split
    all_goals simp
  · intro ht h110
    have hnotlt : ¬(actual < t * (75 / 100)) := by
      rw [h110]
      intro hh
      nlinarith
    unfold evaluate_and_merge
    rw [if_neg (by simp [h90]), if_neg (by rw [← hact]; simp [hnotlt])]
    repeat' split
    all_goals simp
  · intro hlt
    unfold evaluate_and_merge
    rw [if_neg (by simp [h90]), if_pos (by rw [← hact]; simp [hlt])]
    rw [hact]

/-- C3 (witness): commit mode, candidate `[chunkA]` with running estimate 60
against target 64 (60 > 57.6, so evaluation is entered), cluster reporting
48 MB = exactly 75% of 64: the candidate is committed. -/
theorem size_threshold_boundaries_witness :
    mergeLists
        (evaluate_and_merge argsCommit 64 envLockBusy "S" (initWorkerState true) chunkB
          [chunkA] 60 false).1 = [[chunkA]] := by
  exact (size_threshold_boundaries argsCommit 64 envLockBusy "S" (initWorkerState true)
    chunkB [chunkA] 60 48
    (by norm_num [actual_size, argsCommit, envLockBusy, Rat.ceil])
    (by norm_num)).1 (by norm_num)

/-- C4: on a chunk `c` that is not contiguous with the candidate: a one-chunk
candidate is silently replaced by `[c]` with the estimate reset to the
per-chunk estimate; a candidate of two or more chunks is committed immediately
with the size gate bypassed, the single merge command covering exactly the
previously accumulated chunks (whose upper bound is not `c.min`, so never `c`),
after which the candidate restarts as `[c]`. -/
theorem noncontiguous_candidate_handling (args : Args) (t : ℚ) (env : Env) (sh : String)
    (st : WorkerState) (c : Chunk) :
    (∀ a, st.consecutive_chunks = [a] → (a.max == c.min) = false →
        processChunk args t env sh st c =
          ([], some { st with consecutive_chunks := [c]
                              estimated_size_of_consecutive_chunks :=
                                args.phase_1_estimated_chunk_size_mb }))
      ∧ (2 ≤ st.consecutive_chunks.length →
          ((st.consecutive_chunks.getLastD dChunk).max == c.min) = false →
          mergeLists (processChunk args t env sh st c).1 = [st.consecutive_chunks]
            ∧ ∀ st', (processChunk args t env sh st c).2 = some st' →
                st'.consecutive_chunks = [c]
                  ∧ st'.estimated_size_of_consecutive_chunks =
                      args.phase_1_estimated_chunk_size_mb) := by
  constructor
  · intro a h hne
    simp [processChunk, h, hne]
  · intro h2 hnc
    have h0 : (st.consecutive_chunks.length == 0) = false := by
      rw [beq_eq_false_iff_ne]
      omega
    have h1 : (st.consecutive_chunks.length == 1) = false := by
      rw [beq_eq_false_iff_ne]
      omega
    simp only [processChunk, h0, hnc, h1, Bool.false_eq_true, if_false]
    exact evaluate_forced args t env sh st c _ _

/-- C4 (witness): a two-chunk candidate `[chunkA, chunkB]` hit by the
non-adjacent `chunkD` is committed as-is (size gate bypassed: estimate 50 is
below the 90% gate of target 64). -/
theorem noncontiguous_candidate_handling_witness :
    mergeLists
        (processChunk argsPlan 64 envQuiet "S" ⟨[chunkA, chunkB], 50, 0, 0, true, 0⟩
          chunkD).1 = [[chunkA, chunkB]] := by
  exact ((noncontiguous_candidate_handling argsPlan 64 envQuiet "S"
    ⟨[chunkA, chunkB], 50, 0, 0, true, 0⟩ chunkD).2 (by decide) (by decide)).1

/-- C5: the `sem_at_less_than_collection_version` gate (capacity 1) guards at
most one merge per shard worker per run: after the first merge every subsequent
merge of the worker runs under the `sem_at_collection_version` gate
(capacity 8). -/
theorem version_bump_gate_at_most_once (args : Args) (t : ℚ) (env : Env) (sh : String)
    (ver : Version) (chunks : List Chunk) :
    ((mergeGates (merge_chunks_on_shard args t env sh ver chunks).1).drop 1).all
        (· == Gate.atCollectionVersion) = true
      ∧ (mergeGates (merge_chunks_on_shard args t env sh ver chunks).1).countP
          (· == Gate.belowCollectionVersion)
          ≤ max_merges_on_shards_at_less_than_collection_version
      ∧ max_merges_on_shards_at_less_than_collection_version = 1
      ∧ max_merges_on_shards_at_collection_version = 8 := by
  have hdrop : ∀ g ∈ (mergeGates (merge_chunks_on_shard args t env sh ver chunks).1).drop 1,
      g = Gate.atCollectionVersion := by
    unfold merge_chunks_on_shard
    split
    · simp
    · exact runChunks_gates_drop args t env sh chunks _
  refine ⟨?_, ?_, rfl, rfl⟩
  · rw [List.all_eq_true]
    intro g hg
    simp [hdrop g hg]
  · exact countP_below_of_drop _ hdrop

/-- C6: every merge command a worker emits (issued or printed) covers a
nonempty contiguous run of chunks all owned by the worker's shard — no merge
ever spans a gap or two shards. -/
theorem merges_contiguous_single_shard (args : Args) (t : ℚ) (env : Env) (sh : String)
    (ver : Version) (chunks : List Chunk) (hsh : ∀ ch ∈ chunks, ch.shard = sh) :
    ∀ l ∈ mergeLists (merge_chunks_on_shard args t env sh ver chunks).1,
      l ≠ [] ∧ chainB l = true ∧ ∀ ch ∈ l, ch.shard = sh := by
  unfold merge_chunks_on_shard
  split
  · simp
  · intro l hl
    have hgood := runChunks_good args t env sh chunks _
      (fun ch hch => by simp [hsh ch hch]) (by simp [initWorkerState, goodCand, chainB]) l hl
    obtain ⟨hne, hg⟩ := hgood
    simp only [goodCand, Bool.and_eq_true, List.all_eq_true] at hg
    refine ⟨hne, hg.1, ?_⟩
    intro ch hch
    have := hg.2 ch hch
    simpa using this

/-- C6 (witness): in the dry-run scenario the single intended merge covers the
contiguous single-shard run `[chunkA, chunkB, chunkC]`. -/
theorem merges_contiguous_single_shard_witness :
    chainB [chunkA, chunkB, chunkC] = true ∧ chunkA.shard = "S" := by
  have hmem : [chunkA, chunkB, chunkC] ∈
      mergeLists (merge_chunks_on_shard argsPlan 64 envQuiet "S" ⟨1, 1⟩
        [chunkA, chunkB, chunkC]).1 := by
    norm_num [merge_chunks_on_shard, runChunks, processChunk, evaluate_and_merge,
      actual_size, dsEvents, initWorkerState, maxLastmodD, Version.lt,
      chunkA, chunkB, chunkC, argsPlan, envQuiet, dChunk, mergeLists]
  have h := merges_contiguous_single_shard argsPlan 64 envQuiet "S" ⟨1, 1⟩
    [chunkA, chunkB, chunkC] (by decide) [chunkA, chunkB, chunkC] hmem
  exact ⟨h.2.1, h.2.2 chunkA (by simp)⟩

/-- C7: in a dry run a worker emits only intended-merge prints — never a
`dataSize` command and never a `mergeChunks` command — always completes, and
the accumulated estimate is reused verbatim as the exact size. -/
theorem dryrun_no_cluster_commands (args : Args) (t : ℚ) (env : Env) (sh : String)
    (ver : Version) (chunks : List Chunk) (hdry : args.dryrun = true) :
    (∀ ev ∈ (merge_chunks_on_shard args t env sh ver chunks).1,
        ∃ ls g, ev = Event.mergePrinted ls g)
      ∧ (merge_chunks_on_shard args t env sh ver chunks).2 ≠ none
      ∧ (∀ est lo hi, actual_size args env est lo hi = est) := by
  refine ⟨?_, ?_, fun est lo hi => by simp [actual_size, hdry]⟩
  · unfold merge_chunks_on_shard
    split
    · simp
    · exact (runChunks_dryrun args t env sh hdry chunks _).1
  · unfold merge_chunks_on_shard
    split
    · simp
    · exact (runChunks_dryrun args t env sh hdry chunks _).2

/-- C7 (witness): the dry-run scenario worker completes without aborting. -/
theorem dryrun_no_cluster_commands_witness :
    (merge_chunks_on_shard argsPlan 64 envQuiet "S" ⟨1, 1⟩
      [chunkA, chunkB, chunkC]).2 ≠ none :=
  (dryrun_no_cluster_commands argsPlan 64 envQuiet "S" ⟨1, 1⟩
    [chunkA, chunkB, chunkC] rfl).2.1

/-- C8 (counterexample): with the namespace not registered as sharded, the run
fails before any event with the unstructured `TypeError` of subscripting
`find_one`'s `None` result (line 23) — not with a dedicated
`MetadataUnavailable` error, which the source never defines or raises. -/
theorem not_sharded_typeerror_cex :
    main_model argsCommit envQuiet dbNotSharded [("S", [chunkA, chunkB])] =
      ([], some PyError.typeError)
      ∧ PyError.typeError ≠ PyError.metadataUnavailable := by
  exact ⟨rfl, by decide⟩

/-- C8 (amended): whenever the namespace is not registered as sharded, the run
fails at metadata-load time, before emitting any event (so before any mutation),
with the generic Python `TypeError` (there is no defined `MetadataUnavailable`
error in the source). -/
theorem not_sharded_fails_at_load (args : Args) (env : Env) (db : ConfigDb)
    (shard_to_chunks : List (String × List Chunk)) (h : db.collections = none) :
    main_model args env db shard_to_chunks = ([], some PyError.typeError) := by
  unfold main_model load_prefix
  rw [h]

/-- C8 (witness): the amended claim at an empty snapshot. -/
theorem not_sharded_fails_at_load_witness :
    main_model argsPlan envQuiet dbNotSharded [] = ([], some PyError.typeError) :=
  not_sharded_fails_at_load argsPlan envQuiet dbNotSharded [] rfl

/-- C9: a shard with fewer than two chunks makes its worker return immediately:
no event (no merge, no `dataSize`, no gate acquisition) and a zero merge
counter. -/
theorem small_shard_returns_immediately (args : Args) (t : ℚ) (env : Env) (sh : String)
    (ver : Version) (chunks : List Chunk) (h : chunks.length < 2) :
    merge_chunks_on_shard args t env sh ver chunks = ([], some (initWorkerState false))
      ∧ (initWorkerState false).num_merges_performed = 0 := by
  refine ⟨?_, rfl⟩
  unfold merge_chunks_on_shard
  rw [if_pos h]

/-- C9 (witness): a single-chunk shard. -/
theorem small_shard_returns_immediately_witness :
    merge_chunks_on_shard argsPlan 64 envQuiet "S" ⟨1, 1⟩ [chunkA] =
      ([], some (initWorkerState false)) :=
  (small_shard_returns_immediately argsPlan 64 envQuiet "S" ⟨1, 1⟩ [chunkA]
    (by decide)).1

/-- C10: even in a dry run — where the balancer, auto-splitter and chunk-size
precondition checks are all skipped — a missing `chunksize` settings document
makes the run fail with the unstructured `TypeError` of line 63
(`chunk_size_doc['value']` on `None`), before any chunk is scanned and before
any worker runs (no event is emitted, for every snapshot). -/
theorem dryrun_missing_chunksize_fails (args : Args) (env : Env) (db : ConfigDb)
    (shard_to_chunks : List (String × List Chunk)) (hcoll : db.collections = some ())
    (hdry : args.dryrun = true) (hcs : db.chunksize = none) :
    main_model args env db shard_to_chunks = ([], some PyError.typeError) := by
  unfold main_model load_prefix
  rw [hcoll, hcs]
  simp [hdry]

/-- C10 (witness): a dry run against a config database with the namespace
sharded but no `chunksize` document, on the scenario snapshot. -/
theorem dryrun_missing_chunksize_fails_witness :
    main_model argsPlan envQuiet dbNoChunkSize [("S", [chunkA, chunkB, chunkC])] =
      ([], some PyError.typeError) :=
  dryrun_missing_chunksize_fails argsPlan envQuiet dbNoChunkSize
    [("S", [chunkA, chunkB, chunkC])] rfl rfl rfl

end Defrag
